import Mathlib

/-!
Verification of the execrpc transport against its specification.

The embedding below follows the repository sources:
* the frame codec (header/message wire format),
* the typed server's per-request pipeline (`server.go`, current version:
  message loop, delayed delivery, receipt decoration),
* the raw server start guard,
* the raw client (`client.go`: `newCall`, the reader loop `input`, `Close`,
  `Execute`) and the typed `Result.Err`.

Machine integers are modelled as `Nat` with explicit `% 2 ^ w` where Go's
unsigned arithmetic can wrap.  Streams are modelled as `List Nat` of bytes
(each byte `< 256` where produced by the encoders).  Channels are modelled
as explicit lists / option slots, goroutine interleaving as explicit state
passing.
-/

namespace Execrpc

/-! ### Frame codec

Modelled from the spec: the repository's current `message.go` (the 12-byte
big-endian header `id: u32, version: u16, status: u16, size: u32`) is not
present under `src/`; `src/message.go` is a stale revision with `u8`
version/status fields that does not even compile against `src/client.go`
(which assigns a `uint16` client version to `Header.Version`) nor against
the current `server.go` (which passes a `uint16` failure status).  The
definitions below therefore follow the spec's bit-exact wire format in §6.
-/

/-- Big-endian encoding of the low 16 bits of `n`, as two bytes. -/
def u16be (n : Nat) : List Nat :=
  [n / 2 ^ 8 % 2 ^ 8, n % 2 ^ 8]

/-- Big-endian encoding of the low 32 bits of `n`, as four bytes. -/
def u32be (n : Nat) : List Nat :=
  [n / 2 ^ 24 % 2 ^ 8, n / 2 ^ 16 % 2 ^ 8, n / 2 ^ 8 % 2 ^ 8, n % 2 ^ 8]

/-- The value of a big-endian byte string (`binary.BigEndian.UintNN`). -/
def beVal (bs : List Nat) : Nat :=
  bs.foldl (fun acc b => acc * 2 ^ 8 + b) 0

/-- The frame header: `id: u32`, `version: u16`, `status: u16`, `size: u32`. -/
structure Header where
  id : Nat
  version : Nat
  status : Nat
  size : Nat
deriving Repr, DecidableEq

/-- Modelled from the spec: `Header.Write` serializes the four fields
big-endian into a fixed 12-byte buffer, in the order id, version, status,
size. -/
def Header.write (h : Header) : List Nat :=
  u32be h.id ++ u16be h.version ++ u16be h.status ++ u32be h.size

/-- Modelled from the spec: `Header.Read` reads exactly 12 bytes from the
stream (a short read is an error, returned as `none`) and decodes the four
fields big-endian. -/
def Header.read (bs : List Nat) : Option (Header × List Nat) :=
  if 12 ≤ bs.length then
    some ({ id := beVal (bs.take 4)
          , version := beVal ((bs.drop 4).take 2)
          , status := beVal ((bs.drop 6).take 2)
          , size := beVal ((bs.drop 8).take 4) }, bs.drop 12)
  else
    none

/-- A frame: header plus opaque body. -/
structure Message where
  header : Header
  body : List Nat
deriving Repr, DecidableEq

/-- Modelled from the spec: `Message.Write` first overwrites `Header.Size`
with `uint32(len(Body))`, then writes the header followed by the body. -/
def Message.write (m : Message) : List Nat :=
  Header.write { m.header with size := m.body.length % 2 ^ 32 } ++ m.body

/-- Modelled from the spec: `Message.Read` reads a header, then exactly
`size` body bytes (`io.ReadFull`); a short body read is an error. -/
def Message.read (bs : List Nat) : Option (Message × List Nat) :=
  match Header.read bs with
  | none => none
  | some (h, rest) =>
      if h.size ≤ rest.length then
        some ({ header := h, body := rest.take h.size }, rest.drop h.size)
      else
        none

lemma beVal_u16be (n : Nat) : beVal (u16be n) = n % 2 ^ 16 := by
  simp only [u16be, beVal, List.foldl]
  omega

lemma beVal_u32be (n : Nat) : beVal (u32be n) = n % 2 ^ 32 := by
  simp only [u32be, beVal, List.foldl]
  omega

lemma u16be_length (n : Nat) : (u16be n).length = 2 := rfl

lemma u32be_length (n : Nat) : (u32be n).length = 4 := rfl

lemma Header.write_length (h : Header) : h.write.length = 12 := rfl

/-- `Header.write` laid out as an explicit 12-byte buffer. -/
lemma Header.write_eq (h : Header) :
    h.write =
      [ h.id / 2 ^ 24 % 2 ^ 8, h.id / 2 ^ 16 % 2 ^ 8, h.id / 2 ^ 8 % 2 ^ 8, h.id % 2 ^ 8
      , h.version / 2 ^ 8 % 2 ^ 8, h.version % 2 ^ 8
      , h.status / 2 ^ 8 % 2 ^ 8, h.status % 2 ^ 8
      , h.size / 2 ^ 24 % 2 ^ 8, h.size / 2 ^ 16 % 2 ^ 8, h.size / 2 ^ 8 % 2 ^ 8, h.size % 2 ^ 8 ] := rfl

lemma Header.read_write (h : Header) (rest : List Nat) :
    Header.read (h.write ++ rest) =
      some ({ id := h.id % 2 ^ 32, version := h.version % 2 ^ 16
            , status := h.status % 2 ^ 16, size := h.size % 2 ^ 32 }, rest) := by
  rw [Header.write_eq]
  simp only [Header.read, List.length_append, List.length_cons, List.cons_append,
    List.nil_append, List.take, List.drop, beVal, List.foldl]
  rw [if_pos (by omega)]
  refine congrArg some (Prod.ext ?_ rfl)
  simp only [Header.mk.injEq]
  refine ⟨?_, ?_, ?_, ?_⟩ <;> omega

/-- C1: the wire header is a fixed 12-byte big-endian structure laid out as
id (u32), version (u16), status (u16), size (u32): `Header.write` produces
exactly those 12 bytes in that order, and `Header.read` of any 12-byte
buffer recovers each field as the big-endian value of the corresponding
slice, consuming exactly 12 bytes. -/
theorem wire_header_layout (h : Header) (bs : List Nat)
    (hlen : bs.length = 12) :
    h.write.length = 12 ∧
    h.write = u32be h.id ++ u16be h.version ++ u16be h.status ++ u32be h.size ∧
    h.write.take 4 = u32be h.id ∧
    (h.write.drop 4).take 2 = u16be h.version ∧
    (h.write.drop 6).take 2 = u16be h.status ∧
    h.write.drop 8 = u32be h.size ∧
    Header.read bs =
      some ({ id := beVal (bs.take 4), version := beVal ((bs.drop 4).take 2)
            , status := beVal ((bs.drop 6).take 2), size := beVal ((bs.drop 8).take 4) },
            bs.drop 12) := by
  refine ⟨rfl, rfl, rfl, rfl, rfl, rfl, ?_⟩
  simp [Header.read, hlen]

/-- Witness for C1 at a concrete header and a concrete 12-byte buffer. -/
theorem wire_header_layout_witness :
    (Header.write { id := 1, version := 2, status := 3, size := 5 }).length = 12 ∧
    Header.read [0, 0, 0, 1, 0, 2, 0, 3, 0, 0, 0, 5] =
      some ({ id := 1, version := 2, status := 3, size := 5 }, []) := by
  have h := wire_header_layout { id := 1, version := 2, status := 3, size := 5 }
    [0, 0, 0, 1, 0, 2, 0, 3, 0, 0, 0, 5] (by decide)
  refine ⟨h.1, ?_⟩
  rw [h.2.2.2.2.2.2]
  decide

/-- C7: round-trip of the frame codec.  Decoding the encoding of a header
yields the header back (fields being in their `u32`/`u16` ranges), and
decoding the encoding of a message yields the message with its header's
`size` field overwritten by the body length during the write. -/
theorem header_message_roundtrip (h : Header) (m : Message) (rest : List Nat)
    (hid : h.id < 2 ^ 32) (hver : h.version < 2 ^ 16)
    (hst : h.status < 2 ^ 16) (hsz : h.size < 2 ^ 32)
    (mid : m.header.id < 2 ^ 32) (mver : m.header.version < 2 ^ 16)
    (mst : m.header.status < 2 ^ 16) (mlen : m.body.length < 2 ^ 32) :
    Header.read (h.write ++ rest) = some (h, rest) ∧
    Message.read (m.write ++ rest) =
      some ({ m with header := { m.header with size := m.body.length } }, rest) := by
  constructor
  · rw [Header.read_write, Nat.mod_eq_of_lt hid, Nat.mod_eq_of_lt hver,
      Nat.mod_eq_of_lt hst, Nat.mod_eq_of_lt hsz]
  · rw [Message.read, Message.write, List.append_assoc, Header.read_write]
    simp only
    have hb : m.body.length % 2 ^ 32 % 2 ^ 32 = m.body.length := by omega
    rw [hb, if_pos (by simp), List.take_left, List.drop_left,
      Nat.mod_eq_of_lt mid, Nat.mod_eq_of_lt mver, Nat.mod_eq_of_lt mst]

/-- Witness for C7 at a concrete header and message. -/
theorem header_message_roundtrip_witness :
    Header.read (Header.write { id := 1, version := 2, status := 3, size := 4 } ++ [9]) =
      some ({ id := 1, version := 2, status := 3, size := 4 }, [9]) ∧
    Message.read (Message.write
        { header := { id := 1, version := 2, status := 3, size := 99 }, body := [5, 6] } ++ [9]) =
      some ({ header := { id := 1, version := 2, status := 3, size := 2 }, body := [5, 6] }, [9]) := by
  have h := header_message_roundtrip { id := 1, version := 2, status := 3, size := 4 }
    { header := { id := 1, version := 2, status := 3, size := 99 }, body := [5, 6] } [9]
    (by decide) (by decide) (by decide) (by decide)
    (by decide) (by decide) (by decide) (by decide)
  exact ⟨h.1, h.2⟩

/-! ### Message status codes (`server.go`, current revision) -/

def MessageStatusOK : Nat := 0

def MessageStatusContinue : Nat := 1

def MessageStatusInitServer : Nat := 2

def MessageStatusErrDecodeFailed : Nat := 3

def MessageStatusErrEncodeFailed : Nat := 4

def MessageStatusErrInitServerFailed : Nat := 5

def MessageStatusSystemReservedMax : Nat := 99

/-! ### Receipt decoration (`server.go`: `setReceiptValuesIfNotSet`)

`Receipt` models a receipt type that implements all three optional
capabilities (`LastModifiedProvider`, `TagProvider`, `SizeProvider`), as
the repository's `Identity` type does, so every capability probe in
`setReceiptValuesIfNotSet` succeeds. -/

structure Receipt where
  lastModified : Int
  eTag : String
  size : Nat
deriving Repr, DecidableEq

/-- Go's zero value for a receipt (`var receipt R`). -/
def Receipt.zero : Receipt := { lastModified := 0, eTag := "", size := 0 }

/-- `setReceiptValuesIfNotSet(size, checksum, r)` from `server.go`:
fills last-modified with the current time, size with the accumulated size
(only when that is nonzero) and the tag with the checksum (only when that
is nonempty), each only when the receiver's field still has its zero
value.  `now` stands for `time.Now().Unix()`. -/
def setReceiptValuesIfNotSet (size : Nat) (checksum : String) (now : Int)
    (r : Receipt) : Receipt :=
  let r1 := if r.lastModified = 0 then { r with lastModified := now } else r
  let r2 := if size ≠ 0 then
      (if r1.size = 0 then { r1 with size := size } else r1)
    else r1
  if checksum ≠ "" then
    (if r2.eTag = "" then { r2 with eTag := checksum } else r2)
  else r2

/-- One lowercase hexadecimal digit, as in Go's `encoding/hex` table. -/
def hexDigit (n : Nat) : Char :=
  if n < 10 then Char.ofNat (48 + n) else Char.ofNat (87 + n)

/-- `hex.EncodeToString`: two lowercase hex digits per byte. -/
def hexEncodeToString (bs : List Nat) : String :=
  String.mk (bs.flatMap fun b => [hexDigit (b / 16 % 16), hexDigit (b % 16)])

/-! ### Typed server per-request pipeline (`server.go`: `NewServer.callRaw`)

The message loop `for m := range call.messages` is modelled over the list
of successfully encoded message bodies (`bodies`), i.e. the outputs of
`opts.Codec.Encode` in enqueue order.  The Go `hash.Hash` accumulates the
bytes passed to `Write`; it is modelled by recording the written byte
stream (`written`) and applying an abstract digest function to it at
`Sum` time. -/

structure LoopAcc where
  sent : List Message
  buff : List Message
  written : List Nat
  size : Nat
deriving Repr, DecidableEq

/-- The initial loop state: nothing sent, buffered, hashed or counted. -/
def LoopAcc.init : LoopAcc := { sent := [], buff := [], written := [], size := 0 }

/-- `createMessage(b, nil, h, ...)` for an intermediate message: the request
header with `Status = MessageStatusContinue` and the encoded body. -/
def mkContinueMessage (reqHeader : Header) (b : List Nat) : Message :=
  { header := { reqHeader with status := MessageStatusContinue }, body := b }

/-- One iteration of the message loop: build the `Continue` message, buffer
it under delayed delivery or dispatch it immediately, feed its body to the
hasher when hashing is enabled, and add its body length to the running
`uint32` size. -/
def serverStep (delay shouldHash : Bool) (reqHeader : Header)
    (acc : LoopAcc) (b : List Nat) : LoopAcc :=
  let m := mkContinueMessage reqHeader b
  let acc1 := if delay then { acc with buff := acc.buff ++ [m] }
    else { acc with sent := acc.sent ++ [m] }
  let acc2 := if shouldHash then { acc1 with written := acc1.written ++ m.body }
    else acc1
  { acc2 with size := (acc2.size + m.body.length) % 2 ^ 32 }

/-- The message loop.  `server.go` panics when the request header has id 0
(`"message ID must not be 0 for request/response messages"`); the panic is
modelled as `none`. -/
def serverLoop (delay shouldHash : Bool) (reqHeader : Header)
    (acc : LoopAcc) : List (List Nat) → Option LoopAcc
  | [] => some acc
  | b :: bs =>
      if reqHeader.id = 0 then none
      else serverLoop delay shouldHash reqHeader
        (serverStep delay shouldHash reqHeader acc b) bs

/-- The dispatcher's `SendMessage` stamps `Header.Size` from the body
length before writing the frame. -/
def SendMessage (m : Message) : Message :=
  { m with header := { m.header with size := m.body.length % 2 ^ 32 } }

/-- The deferred finalize block: under delayed delivery with `drop` unset
the buffered messages are flushed through the dispatcher, then the receipt
frame (request header with `Status = MessageStatusOK`, body the encoded
receipt) is dispatched. -/
def serverFinalizeFrames (delay drop : Bool) (reqHeader : Header)
    (buff : List Message) (receiptBody : List Nat) : List Message :=
  ((if delay && !drop then buff else []) ++
    [({ header := { reqHeader with status := MessageStatusOK }, body := receiptBody } : Message)]).map
    SendMessage

/-- The frames a request hands to the dispatcher: those written while the
handler is still enqueueing (first component) and those written at
finalize (second component). -/
def serverCallFrames (delay drop shouldHash : Bool) (reqHeader : Header)
    (bodies : List (List Nat)) (receiptBody : List Nat) :
    Option (List Message × List Message) :=
  (serverLoop delay shouldHash reqHeader LoopAcc.init bodies).map
    fun acc => (acc.sent.map SendMessage,
      serverFinalizeFrames delay drop reqHeader acc.buff receiptBody)

/-- The receipt the framework prepares and delivers to the handler through
`receiptToServer`: Go's zero receipt decorated by
`setReceiptValuesIfNotSet` with the accumulated size and the hex-encoded
digest of the hashed stream. -/
def handlerReceipt (shouldHash : Bool) (hasher : List Nat → List Nat)
    (now : Int) (acc : LoopAcc) : Receipt :=
  let checksum := if shouldHash then hexEncodeToString (hasher acc.written) else ""
  setReceiptValuesIfNotSet acc.size checksum now Receipt.zero

lemma serverStep_size (d sh : Bool) (hdr : Header) (acc : LoopAcc) (b : List Nat) :
    (serverStep d sh hdr acc b).size = (acc.size + b.length) % 2 ^ 32 := by
  cases d <;> cases sh <;> rfl

lemma serverStep_written_true (d : Bool) (hdr : Header) (acc : LoopAcc) (b : List Nat) :
    (serverStep d true hdr acc b).written = acc.written ++ b := by
  cases d <;> rfl

lemma serverStep_buff_delay (sh : Bool) (hdr : Header) (acc : LoopAcc) (b : List Nat) :
    (serverStep true sh hdr acc b).buff = acc.buff ++ [mkContinueMessage hdr b] := by
  cases sh <;> rfl

lemma serverStep_sent_delay (sh : Bool) (hdr : Header) (acc : LoopAcc) (b : List Nat) :
    (serverStep true sh hdr acc b).sent = acc.sent := by
  cases sh <;> rfl

lemma serverLoop_eq_foldl (d sh : Bool) (hdr : Header) (hid : hdr.id ≠ 0)
    (acc : LoopAcc) (bodies : List (List Nat)) :
    serverLoop d sh hdr acc bodies = some (bodies.foldl (serverStep d sh hdr) acc) := by
  induction bodies generalizing acc with
  | nil => rfl
  | cons b bs ih => simp [serverLoop, hid, ih]

lemma foldl_serverStep_size (d sh : Bool) (hdr : Header) (bodies : List (List Nat))
    (acc : LoopAcc) (hlt : acc.size < 2 ^ 32) :
    (bodies.foldl (serverStep d sh hdr) acc).size =
      (acc.size + (bodies.map List.length).sum) % 2 ^ 32 := by
  induction bodies generalizing acc with
  | nil => simpa using (Nat.mod_eq_of_lt hlt).symm
  | cons b bs ih =>
      simp only [List.foldl, List.map, List.sum_cons]
      rw [ih _ (by rw [serverStep_size]; exact Nat.mod_lt _ (by norm_num)),
        serverStep_size]
      rw [Nat.mod_add_mod]
      ring_nf

lemma foldl_serverStep_written (d : Bool) (hdr : Header) (bodies : List (List Nat))
    (acc : LoopAcc) :
    (bodies.foldl (serverStep d true hdr) acc).written = acc.written ++ bodies.flatten := by
  induction bodies generalizing acc with
  | nil => simp
  | cons b bs ih =>
      simp only [List.foldl, List.flatten_cons]
      rw [ih, serverStep_written_true, List.append_assoc]

lemma foldl_serverStep_buff (sh : Bool) (hdr : Header) (bodies : List (List Nat))
    (acc : LoopAcc) :
    (bodies.foldl (serverStep true sh hdr) acc).buff =
      acc.buff ++ bodies.map (mkContinueMessage hdr) := by
  induction bodies generalizing acc with
  | nil => simp
  | cons b bs ih =>
      simp only [List.foldl, List.map]
      rw [ih, serverStep_buff_delay, List.append_assoc]
      rfl

lemma foldl_serverStep_sent (sh : Bool) (hdr : Header) (bodies : List (List Nat))
    (acc : LoopAcc) :
    (bodies.foldl (serverStep true sh hdr) acc).sent = acc.sent := by
  induction bodies generalizing acc with
  | nil => rfl
  | cons b bs ih => rw [List.foldl, ih, serverStep_sent_delay]

lemma handlerReceipt_zero (hasher : List Nat → List Nat) (now : Int) (acc : LoopAcc) :
    handlerReceipt true hasher now acc =
      { lastModified := now, eTag := hexEncodeToString (hasher acc.written)
      , size := acc.size } := by
  unfold handlerReceipt setReceiptValuesIfNotSet Receipt.zero
  by_cases hz : acc.size = 0 <;>
    by_cases hc : hexEncodeToString (hasher acc.written) = "" <;>
    simp [hz, hc]

/-- C2: with hashing enabled (the receipt type implements the size and tag
capabilities and a hasher is configured), the receipt the framework
delivers to the handler carries `size` equal to the sum of the encoded
message body lengths and `eTag` equal to the hex encoding of the hash of
the concatenated bodies in enqueue order; and `setReceiptValuesIfNotSet`
never overwrites a field the user pre-set to a nonzero / nonempty value. -/
theorem receipt_decoration (delay : Bool) (hdr : Header) (bodies : List (List Nat))
    (hasher : List Nat → List Nat) (now : Int)
    (hid : hdr.id ≠ 0) (hsum : (bodies.map List.length).sum < 2 ^ 32) :
    (serverLoop delay true hdr LoopAcc.init bodies).map (handlerReceipt true hasher now) =
      some { lastModified := now
           , eTag := hexEncodeToString (hasher bodies.flatten)
           , size := (bodies.map List.length).sum } ∧
    (∀ (size : Nat) (checksum : String) (t : Int) (r : Receipt), r.size ≠ 0 →
      (setReceiptValuesIfNotSet size checksum t r).size = r.size) ∧
    (∀ (size : Nat) (checksum : String) (t : Int) (r : Receipt), r.eTag ≠ "" →
      (setReceiptValuesIfNotSet size checksum t r).eTag = r.eTag) := by
  refine ⟨?_, ?_, ?_⟩
  · have hsize := foldl_serverStep_size delay true hdr bodies LoopAcc.init (by decide)
    rw [show LoopAcc.init.size = 0 from rfl, Nat.zero_add, Nat.mod_eq_of_lt hsum] at hsize
    have hwritten := foldl_serverStep_written delay hdr bodies LoopAcc.init
    rw [show LoopAcc.init.written = ([] : List Nat) from rfl, List.nil_append] at hwritten
    rw [serverLoop_eq_foldl _ _ _ hid, Option.map_some', handlerReceipt_zero,
      hsize, hwritten]
  · intro size checksum t r hr
    unfold setReceiptValuesIfNotSet
    by_cases h1 : r.lastModified = 0 <;>
      by_cases h2 : size = 0 <;>
      by_cases h3 : checksum = "" <;>
      by_cases h4 : r.eTag = "" <;>
      simp [h1, h2, h3, h4, hr]
  · intro size checksum t r hr
    unfold setReceiptValuesIfNotSet
    by_cases h1 : r.lastModified = 0 <;>
      by_cases h2 : size = 0 <;>
      by_cases h3 : checksum = "" <;>
      by_cases h4 : r.size = 0 <;>
      simp [h1, h2, h3, h4, hr]

/-- Witness for C2: two bodies of lengths 2 and 1 with the identity digest
function; size 3 and the hex of the concatenated bytes, at a pre-set
receipt the decorator leaves the pre-set fields alone. -/
theorem receipt_decoration_witness :
    (serverLoop false true { id := 7, version := 1, status := 0, size := 0 } LoopAcc.init
        [[10, 11], [12]]).map (handlerReceipt true id 99) =
      some { lastModified := 99, eTag := "0a0b0c", size := 3 } ∧
    (setReceiptValuesIfNotSet 5 "ff" 1 { lastModified := 2, eTag := "user", size := 4 }).size = 4 ∧
    (setReceiptValuesIfNotSet 5 "ff" 1 { lastModified := 2, eTag := "user", size := 4 }).eTag = "user" := by
  have h := receipt_decoration false { id := 7, version := 1, status := 0, size := 0 }
    [[10, 11], [12]] id 99 (by decide) (by decide)
  refine ⟨?_, ?_, ?_⟩
  · rw [h.1]
    decide
  · exact h.2.1 5 "ff" 1 { lastModified := 2, eTag := "user", size := 4 } (by decide)
  · exact h.2.2 5 "ff" 1 { lastModified := 2, eTag := "user", size := 4 } (by decide)

/-- C5: under delayed delivery no frame is dispatched while the handler is
enqueueing; at finalize, a close with `drop = true` dispatches only the
receipt frame (the client sees zero message frames, then the receipt),
and a close with `drop = false` flushes the buffered messages to the
dispatcher before the receipt frame. -/
theorem delayed_delivery_frames (drop shouldHash : Bool) (hdr : Header)
    (bodies : List (List Nat)) (receiptBody : List Nat) (hid : hdr.id ≠ 0) :
    serverCallFrames true drop shouldHash hdr bodies receiptBody =
      some ([],
        (if drop then []
          else bodies.map fun b => SendMessage (mkContinueMessage hdr b)) ++
        [SendMessage { header := { hdr with status := MessageStatusOK }, body := receiptBody }]) := by
  unfold serverCallFrames serverFinalizeFrames
  rw [serverLoop_eq_foldl _ _ _ hid, Option.map_some']
  rw [foldl_serverStep_sent, foldl_serverStep_buff]
  simp only [LoopAcc.init, List.nil_append, List.map_nil]
  cases drop <;> simp [List.map_append]

/-- Witness for C5 at a concrete request: one enqueued body, both drop
modes. -/
theorem delayed_delivery_frames_witness :
    serverCallFrames true true false { id := 3, version := 1, status := 0, size := 0 }
        [[65, 66]] [1, 2, 3] =
      some ([], [{ header := { id := 3, version := 1, status := 0, size := 3 }, body := [1, 2, 3] }]) ∧
    serverCallFrames true false false { id := 3, version := 1, status := 0, size := 0 }
        [[65, 66]] [1, 2, 3] =
      some ([],
        [ { header := { id := 3, version := 1, status := 1, size := 2 }, body := [65, 66] }
        , { header := { id := 3, version := 1, status := 0, size := 3 }, body := [1, 2, 3] } ]) := by
  constructor
  · rw [delayed_delivery_frames true false { id := 3, version := 1, status := 0, size := 0 }
      [[65, 66]] [1, 2, 3] (by decide)]
    decide
  · rw [delayed_delivery_frames false false { id := 3, version := 1, status := 0, size := 0 }
      [[65, 66]] [1, 2, 3] (by decide)]
    decide

/-! ### Raw server start guard (`server.go`: `ServerRaw.Start`, current
revision) -/

/-- What `ServerRaw.Start` does after passing the started guard, in
order: rebind the process stdout to the internal pipe, emit the ready
sentinel on the preserved stdout, and run the input/output loop to
completion. -/
inductive StartAction where
  | hijackStdout
  | emitReadySentinel
  | runInputOutput
deriving Repr, DecidableEq

/-- The raw server state relevant to the start guard. -/
structure ServerState where
  started : Bool
deriving Repr, DecidableEq

/-- The outcome of a call to `ServerRaw.Start`. -/
inductive StartOutcome where
  | panicked (msg : String)
  | ran (st : ServerState) (actions : List StartAction)
deriving Repr, DecidableEq

/-- `ServerRaw.Start`: panic with "server already started" when the
`started` flag is set, otherwise set the flag and perform the stdout
hijack, the ready sentinel and the loop. -/
def ServerRaw.start (st : ServerState) : StartOutcome :=
  if st.started then StartOutcome.panicked "server already started"
  else StartOutcome.ran { started := true }
    [StartAction.hijackStdout, StartAction.emitReadySentinel, StartAction.runInputOutput]

/-- C10: the first `Start` on a fresh server performs the stdout hijack and
runs the loop while marking the server started; a `Start` on any server
whose `started` flag is set panics with "server already started"; in
particular any `Start` following a successful `Start` panics instead of
re-running the initialization. -/
theorem start_double_init_guard :
    ServerRaw.start { started := false } =
      StartOutcome.ran { started := true }
        [StartAction.hijackStdout, StartAction.emitReadySentinel, StartAction.runInputOutput] ∧
    ServerRaw.start { started := true } = StartOutcome.panicked "server already started" ∧
    (∀ (st st' : ServerState) (acts : List StartAction),
      ServerRaw.start st = StartOutcome.ran st' acts →
      ServerRaw.start st' = StartOutcome.panicked "server already started") := by
  refine ⟨rfl, rfl, ?_⟩
  intro st st' acts h
  unfold ServerRaw.start at h ⊢
  by_cases hs : st.started
  · simp [hs] at h
  · simp [hs] at h
    rw [← h.1]
    rfl

/-- Witness for C10: starting twice from a fresh server panics the second
time. -/
theorem start_double_init_guard_witness :
    ServerRaw.start { started := true } = StartOutcome.panicked "server already started" := by
  exact (start_double_init_guard.2.2 { started := false } { started := true }
    [StartAction.hijackStdout, StartAction.emitReadySentinel, StartAction.runInputOutput]
    start_double_init_guard.1)

/-! ### Client (`client.go`, current revision)

Errors are modelled as an inductive with the `error` strings the client
compares against; `wrapped` models `addErrContext`'s
`fmt.Errorf("%s: %s %s", op, err, stderr)`. -/

inductive GoError where
  | eof
  | errShutdown
  | errUnexpectedEOF
  | errTimeoutWaitingForCall
  | wrapped (op : String) (e : GoError) (stderrTail : String)
  | other (msg : String)
deriving Repr, DecidableEq

/-- The `Error()` string of each modelled error value. -/
def GoError.message : GoError → String
  | GoError.eof => "EOF"
  | GoError.errShutdown => "connection is shut down"
  | GoError.errUnexpectedEOF => "unexpected EOF"
  | GoError.errTimeoutWaitingForCall => "timed out waiting for call to complete"
  | GoError.wrapped op e tail => op ++ ": " ++ e.message ++ " " ++ tail
  | GoError.other msg => msg

/-- Substring test on character lists (Go's `strings.Contains`). -/
def hasSubstr (hay needle : List Char) : Bool :=
  match hay with
  | [] => needle.isEmpty
  | _ :: t => needle.isPrefixOf hay || hasSubstr t needle

/-- `strings.Contains(s, sub)`. -/
def strContains (s sub : String) : Bool :=
  hasSubstr s.toList sub.toList

/-- The client-side state of one in-flight call: the frames the reader
pushed into its messages channel, whether `done()` has fired, and the
error it was completed with. -/
structure CallState where
  id : Nat
  delivered : List Message
  doneSignaled : Bool
  error : Option GoError
deriving Repr, DecidableEq

/-- The `ClientRaw` state: the `closing` / `shutdown` flags, the `seq`
counter, the pending table (`map[uint32]*call`, as an association list),
the out-of-band `Messages` channel and the calls completed by the reader. -/
structure ClientState where
  closing : Bool
  shutdown : Bool
  seq : Nat
  pending : List (Nat × CallState)
  oob : List Message
  completed : List (Nat × CallState)
deriving Repr, DecidableEq

/-- `c.pending[id]` lookup. -/
def lookupPending (pending : List (Nat × CallState)) (id : Nat) : Option CallState :=
  match pending.find? (fun p => p.1 == id) with
  | some p => some p.2
  | none => none

/-- Replacing the entry for `id` (the reader mutates the looked-up call). -/
def updatePending (pending : List (Nat × CallState)) (id : Nat) (c : CallState) :
    List (Nat × CallState) :=
  pending.map fun p => if p.1 == id then (p.1, c) else p

/-- `delete(c.pending, id)`. -/
def removePending (pending : List (Nat × CallState)) (id : Nat) :
    List (Nat × CallState) :=
  pending.filter fun p => p.1 != id

/-- The result of the reader loop body for one frame. -/
inductive ReadStep where
  | continueLoop (st : ClientState)
  | panicked (msg : String)
deriving Repr, DecidableEq

/-- One iteration of `ClientRaw.input` after a successful frame read:
an id-0 frame goes to the out-of-band `Messages` channel; otherwise the
pending call is looked up, a missing entry panics
(`"call with ID %d not found"`), a `Continue` frame is delivered into the
call's channel keeping the entry, and any other status delivers the
terminal frame, removes the entry and signals `done`.  (The Go
`call == nil` break after the delete is unreachable: the lookup above it
succeeded.) -/
def ClientRaw.inputStep (st : ClientState) (m : Message) : ReadStep :=
  if m.header.id = 0 then
    ReadStep.continueLoop { st with oob := st.oob ++ [m] }
  else
    match lookupPending st.pending m.header.id with
    | none => ReadStep.panicked ("call with ID " ++ toString m.header.id ++ " not found")
    | some call =>
        if m.header.status = MessageStatusContinue then
          let upd : CallState := { call with delivered := call.delivered ++ [m] }
          ReadStep.continueLoop { st with pending := updatePending st.pending m.header.id upd }
        else
          let fin : CallState :=
            { call with delivered := call.delivered ++ [m], doneSignaled := true }
          ReadStep.continueLoop { st with
            pending := removePending st.pending m.header.id,
            completed := st.completed ++ [(m.header.id, fin)] }

/-- The EOF translation at the bottom of `ClientRaw.input`: a bare `io.EOF`
(or an error whose text contains "already closed") becomes `ErrShutdown`
when `closing` is set and `io.ErrUnexpectedEOF` otherwise; any other error
is kept. -/
def inputFinishErr (closing : Bool) (err : GoError) : GoError :=
  if (err == GoError.eof) || strContains err.message "already closed" then
    (if closing then GoError.errShutdown else GoError.errUnexpectedEOF)
  else err

/-- `for _, call := range c.pending { call.Error = err; call.done() }`. -/
def failPending (err : GoError) : List (Nat × CallState) → List (Nat × CallState)
  | [] => []
  | (i, c) :: rest =>
      (i, { c with error := some err, doneSignaled := true }) :: failPending err rest

/-- The teardown run when the reader loop exits with `readErr`: set
`shutdown`, translate the error, and complete every pending call with the
translated error.  Returns the new state and the translated error. -/
def ClientRaw.inputTeardown (st : ClientState) (readErr : GoError) :
    ClientState × GoError :=
  let err := inputFinishErr st.closing readErr
  ({ st with shutdown := true, pending := failPending err st.pending }, err)

/-- `ClientRaw.Close`: a second close observes `closing` and returns
`ErrShutdown`; the first close sets `closing` and returns the connection
close result (`connCloseErr`). -/
def ClientRaw.close (st : ClientState) (connCloseErr : Option GoError) :
    Option GoError × ClientState :=
  if st.closing then (some GoError.errShutdown, st)
  else (connCloseErr, { st with closing := true })

/-- `ClientRaw.newCall`: increment the `uint32` sequence counter, build the
request frame from the client version and the new id, and either complete
the call immediately with `ErrShutdown` (when `closing` or `shutdown` is
set, without touching the pending table or the connection) or insert it
into the pending table and send the frame.  Returns the call, the new
state and the frame written to the connection (`none` when nothing was
sent). -/
def ClientRaw.newCall (st : ClientState) (version status : Nat) (body : List Nat) :
    CallState × ClientState × Option Message :=
  let seq := (st.seq + 1) % 2 ^ 32
  let m : Message :=
    { header := { id := seq, version := version, status := status, size := 0 }, body := body }
  let st1 := { st with seq := seq }
  if st1.shutdown || st1.closing then
    ({ id := seq, delivered := [], doneSignaled := true, error := some GoError.errShutdown },
      st1, none)
  else
    ({ id := seq, delivered := [], doneSignaled := false, error := none },
      { st1 with pending := st1.pending ++
          [(seq, { id := seq, delivered := [], doneSignaled := false, error := none })] },
      some m)

/-- The observable outcome of `ClientRaw.Execute`: either it finds the call
already completed (`done` signalled synchronously, as in the shutdown
path) and returns at once, or it parks waiting for the reader / timeout. -/
inductive ExecOutcome where
  | finished (err : Option GoError) (st : ClientState) (sent : Option Message)
  | awaitsReader (st : ClientState) (sent : Option Message)
deriving Repr, DecidableEq

/-- `ClientRaw.Execute`: run `newCall`; when the call is already done,
return its error wrapped by `addErrContext("execute", err)` together with
the captured stderr tail. -/
def ClientRaw.execute (st : ClientState) (version status : Nat) (body : List Nat)
    (stderrTail : String) : ExecOutcome :=
  let r := ClientRaw.newCall st version status body
  if r.1.doneSignaled then
    ExecOutcome.finished (r.1.error.map fun e => GoError.wrapped "execute" e stderrTail)
      r.2.1 r.2.2
  else
    ExecOutcome.awaitsReader r.2.1 r.2.2

/-- A freshly started client: `seq` is 0, nothing pending, no flags. -/
def freshClient : ClientState :=
  { closing := false, shutdown := false, seq := 0, pending := [], oob := [], completed := [] }

/-- The client state after `n` consecutive `newCall`s on a fresh client. -/
def iterNewCall (version status : Nat) (body : List Nat) : Nat → ClientState
  | 0 => freshClient
  | n + 1 => (ClientRaw.newCall (iterNewCall version status body n) version status body).2.1

/-- The id issued by the `n`-th `execute` on a fresh client. -/
def idIssued (version status : Nat) (body : List Nat) (n : Nat) : Nat :=
  (iterNewCall version status body n).seq

lemma newCall_seq (st : ClientState) (version status : Nat) (body : List Nat) :
    (ClientRaw.newCall st version status body).2.1.seq = (st.seq + 1) % 2 ^ 32 := by
  unfold ClientRaw.newCall
  by_cases h : (st.shutdown || st.closing) = true <;> simp [h]

lemma idIssued_eq (version status : Nat) (body : List Nat) (n : Nat) :
    idIssued version status body n = n % 2 ^ 32 := by
  induction n with
  | zero => rfl
  | succ k ih =>
      unfold idIssued iterNewCall
      rw [newCall_seq]
      unfold idIssued at ih
      rw [ih]
      omega

/-- `Result.Err`: a non-blocking `select` receive on the buffered error
channel (modelled as an option slot).  Returns the value read (if any)
and the channel contents afterwards. -/
def Result.errCall (errc : Option GoError) : Option GoError × Option GoError :=
  match errc with
  | some e => (some e, none)
  | none => (none, none)

/-- C3 counterexample: a frame with nonzero id and no pending entry is not
silently discarded — the reader panics ("call with ID 1 not found")
instead of continuing. -/
theorem reader_unknown_id_cx :
    ClientRaw.inputStep freshClient
        { header := { id := 1, version := 1, status := 0, size := 0 }, body := [] } =
      ReadStep.panicked ("call with ID " ++ toString (1 : Nat) ++ " not found") := rfl

/-- C3 amended: for every frame whose id is nonzero and has no entry in
the pending table, the reader panics with "call with ID %d not found";
such a frame is fatal, not silently discarded. -/
theorem reader_unknown_id_panics (st : ClientState) (m : Message)
    (hz : m.header.id ≠ 0) (hnf : lookupPending st.pending m.header.id = none) :
    ClientRaw.inputStep st m =
      ReadStep.panicked ("call with ID " ++ toString m.header.id ++ " not found") := by
  unfold ClientRaw.inputStep
  rw [if_neg hz, hnf]

/-- Witness for the amended C3 at a concrete state and frame. -/
theorem reader_unknown_id_panics_witness :
    ClientRaw.inputStep
        { closing := false, shutdown := false, seq := 2
        , pending := [(1, { id := 1, delivered := [], doneSignaled := false, error := none })]
        , oob := [], completed := [] }
        { header := { id := 2, version := 1, status := 1, size := 0 }, body := [] } =
      ReadStep.panicked ("call with ID " ++ toString (2 : Nat) ++ " not found") := by
  exact reader_unknown_id_panics _ _ (by decide) rfl

lemma failPending_mem (err : GoError) (l : List (Nat × CallState))
    (p : Nat × CallState) (hp : p ∈ failPending err l) :
    p.2.error = some err ∧ p.2.doneSignaled = true := by
  induction l with
  | nil => simp [failPending] at hp
  | cons q rest ih =>
      obtain ⟨i, c⟩ := q
      rw [failPending] at hp
      rcases List.mem_cons.mp hp with h | h
      · rw [h]
        exact ⟨rfl, rfl⟩
      · exact ih h

/-- C4: when the reader loop exits with a read error, the teardown sets
the `shutdown` flag and completes every call still pending with the
translated error; a bare EOF is translated to `ErrShutdown` when `closing`
is set and to `UnexpectedEOF` otherwise. -/
theorem reader_exit_teardown (st : ClientState) (readErr : GoError) :
    (ClientRaw.inputTeardown st readErr).1.shutdown = true ∧
    (ClientRaw.inputTeardown st readErr).1.pending =
      failPending (inputFinishErr st.closing readErr) st.pending ∧
    (∀ p, p ∈ (ClientRaw.inputTeardown st readErr).1.pending →
      p.2.error = some (ClientRaw.inputTeardown st readErr).2 ∧ p.2.doneSignaled = true) ∧
    (readErr = GoError.eof →
      (ClientRaw.inputTeardown st readErr).2 =
        (if st.closing then GoError.errShutdown else GoError.errUnexpectedEOF)) := by
  refine ⟨rfl, rfl, ?_, ?_⟩
  · intro p hp
    exact failPending_mem _ _ _ hp
  · intro he
    simp [ClientRaw.inputTeardown, inputFinishErr, he]

/-- Witness for C4: a concrete teardown with one pending call, once under
`closing` and once not. -/
theorem reader_exit_teardown_witness :
    (ClientRaw.inputTeardown
        { closing := false, shutdown := false, seq := 1
        , pending := [(1, { id := 1, delivered := [], doneSignaled := false, error := none })]
        , oob := [], completed := [] } GoError.eof).2 = GoError.errUnexpectedEOF ∧
    (ClientRaw.inputTeardown
        { closing := true, shutdown := false, seq := 1
        , pending := [(1, { id := 1, delivered := [], doneSignaled := false, error := none })]
        , oob := [], completed := [] } GoError.eof).2 = GoError.errShutdown ∧
    (1, ({ id := 1, delivered := [], doneSignaled := true
         , error := some GoError.errUnexpectedEOF } : CallState)).2.error =
      some GoError.errUnexpectedEOF := by
  refine ⟨?_, ?_, ?_⟩
  · exact (reader_exit_teardown _ GoError.eof).2.2.2 rfl
  · exact (reader_exit_teardown _ GoError.eof).2.2.2 rfl
  · exact ((reader_exit_teardown
      { closing := false, shutdown := false, seq := 1
      , pending := [(1, { id := 1, delivered := [], doneSignaled := false, error := none })]
      , oob := [], completed := [] } GoError.eof).2.2.1 _ (by decide)).1

/-- C6: after a close, a further close returns `ErrShutdown`, and on any
client whose `closing` flag is set, `execute` finds the call completed
synchronously with `ErrShutdown` (wrapped with the "execute" context),
writes no frame to the connection, and leaves the pending table alone. -/
theorem close_then_execute (st st2 : ClientState) (e1 e2 : Option GoError)
    (v s : Nat) (b : List Nat) (tail : String)
    (hc : st.closing = false) (h2 : st2.closing = true) :
    (ClientRaw.close st e1).2.closing = true ∧
    (ClientRaw.close (ClientRaw.close st e1).2 e2).1 = some GoError.errShutdown ∧
    ClientRaw.execute st2 v s b tail =
      ExecOutcome.finished (some (GoError.wrapped "execute" GoError.errShutdown tail))
        { st2 with seq := (st2.seq + 1) % 2 ^ 32 } none := by
  refine ⟨?_, ?_, ?_⟩
  · simp [ClientRaw.close, hc]
  · simp [ClientRaw.close, hc]
  · simp [ClientRaw.execute, ClientRaw.newCall, h2]

/-- Witness for C6 at a concrete freshly closed client. -/
theorem close_then_execute_witness :
    (ClientRaw.close (ClientRaw.close freshClient none).2 none).1 =
      some GoError.errShutdown ∧
    ClientRaw.execute (ClientRaw.close freshClient none).2 1 0 [7] "tail" =
      ExecOutcome.finished (some (GoError.wrapped "execute" GoError.errShutdown "tail"))
        { closing := true, shutdown := false, seq := 1, pending := [], oob := []
        , completed := [] } none := by
  have h := close_then_execute freshClient (ClientRaw.close freshClient none).2
    none none 1 0 [7] "tail" rfl rfl
  exact ⟨h.2.1, h.2.2⟩

/-- C8 counterexample: the id counter is a wrapping `uint32`: the
2^32-th `execute` on one connection is issued id 0 (the reserved
out-of-band id), smaller than its predecessor, so the issued ids are not
strictly monotonically increasing. -/
theorem request_ids_wrap_cx :
    idIssued 1 0 [] (2 ^ 32) = 0 ∧
    idIssued 1 0 [] (2 ^ 32 - 1) = 2 ^ 32 - 1 ∧
    ¬ idIssued 1 0 [] (2 ^ 32 - 1) < idIssued 1 0 [] (2 ^ 32) := by
  rw [idIssued_eq, idIssued_eq, Nat.mod_self, Nat.mod_eq_of_lt (by norm_num)]
  norm_num

/-- C8 amended: ids are issued as `seq` modulo 2^32, so the first id is 1
and the ids are strictly monotonically increasing as long as fewer than
2^32 ids have been issued on the connection (after which the counter
wraps to the reserved id 0); and an id-0 frame is routed to the
out-of-band messages channel with the pending table untouched (the state
changes only in `oob`). -/
theorem request_ids_and_oob_routing (v s : Nat) (b : List Nat) :
    idIssued v s b 1 = 1 ∧
    (∀ m n : Nat, m < n → n < 2 ^ 32 → idIssued v s b m < idIssued v s b n) ∧
    (∀ (st : ClientState) (msg : Message), msg.header.id = 0 →
      ClientRaw.inputStep st msg =
        ReadStep.continueLoop { st with oob := st.oob ++ [msg] }) := by
  refine ⟨by rw [idIssued_eq]; norm_num, ?_, ?_⟩
  · intro m n hmn hn
    rw [idIssued_eq, idIssued_eq, Nat.mod_eq_of_lt hn, Nat.mod_eq_of_lt (by omega)]
    exact hmn
  · intro st msg hz
    unfold ClientRaw.inputStep
    rw [if_pos hz]

/-- Witness for the amended C8 at concrete calls and a concrete id-0
frame. -/
theorem request_ids_and_oob_routing_witness :
    idIssued 1 0 [] 1 = 1 ∧
    idIssued 1 0 [] 2 < idIssued 1 0 [] 3 ∧
    ClientRaw.inputStep freshClient
        { header := { id := 0, version := 1, status := 1, size := 0 }, body := [9] } =
      ReadStep.continueLoop { freshClient with
        oob := [{ header := { id := 0, version := 1, status := 1, size := 0 }, body := [9] }] } := by
  have h := request_ids_and_oob_routing 1 0 []
  exact ⟨h.1, h.2.1 2 3 (by norm_num) (by norm_num), h.2.2 _ _ rfl⟩

/-- C9 counterexample: `Result.Err` consumes the published error: after an
error has been published and read once, a second call returns `nil`
rather than the same error again. -/
theorem result_err_consumes_cx :
    (Result.errCall (some GoError.errShutdown)).1 = some GoError.errShutdown ∧
    (Result.errCall (Result.errCall (some GoError.errShutdown)).2).1 = none := by
  exact ⟨rfl, rfl⟩

/-- C9 amended: `Result.Err` is non-blocking — it returns `nil`
immediately when no error has been published — and when an error has been
published it returns that error while removing it from the channel, so
the next call returns `nil`. -/
theorem result_err_nonblocking (e : GoError) :
    Result.errCall none = (none, none) ∧
    Result.errCall (some e) = (some e, none) ∧
    (Result.errCall (Result.errCall (some e)).2).1 = none := by
  exact ⟨rfl, rfl, rfl⟩

end Execrpc
